import Mathlib

/-!
Verification of the identifier codec, status poller, route handlers and
pagination aggregator of the APS viewer application.

Sources embedded:
- src/services/aps.js : urnify, deurnify, ensureBucketExists, listObjects
- src/unnamed/part_000 (models route) : GET /api/models/:urn/status
- src/routes/buckets.js : POST /api/buckets sanitization
- src/wwwroot/main.js : onModelSelected poll loop

Identifiers are modelled as byte lists (Node's Buffer.from over ASCII
identifiers), tokens as character lists.
-/

namespace Aps

/-! ## Identifier codec (src/services/aps.js lines 200-206)

JS: service.urnify = (id) => Buffer.from(id).toString("base64").replace(/=/g, "");
JS: service.deurnify = (urn) => {
      const paddedUrn = urn + "=".repeat((4 - (urn.length % 4)) % 4);
      return Buffer.from(paddedUrn, "base64").toString(); };
-/

/-- The standard base64 alphabet used by Buffer.toString("base64"). -/
def b64char (s : Nat) : Char :=
  if s < 26 then Char.ofNat (65 + s)
  else if s < 52 then Char.ofNat (97 + (s - 26))
  else if s < 62 then Char.ofNat (48 + (s - 52))
  else if s = 62 then '+'
  else '/'

/-- Base64 digit value of a character; none for characters outside the
alphabet (Node's decoder skips those). -/
def b64value (c : Char) : Option Nat :=
  let n := c.toNat
  if 65 ≤ n ∧ n ≤ 90 then some (n - 65)
  else if 97 ≤ n ∧ n ≤ 122 then some (n - 97 + 26)
  else if 48 ≤ n ∧ n ≤ 57 then some (n - 48 + 52)
  else if n = 43 then some 62
  else if n = 47 then some 63
  else none

/-- The 6-bit groups of a byte sequence, as produced by base64 encoding
(without the pad characters). -/
def sextets : List Nat → List Nat
  | [] => []
  | [b1] => [b1 / 4, b1 % 4 * 16]
  | [b1, b2] => [b1 / 4, b1 % 4 * 16 + b2 / 16, b2 % 16 * 4]
  | b1 :: b2 :: b3 :: rest =>
      b1 / 4 :: (b1 % 4 * 16 + b2 / 16) :: (b2 % 16 * 4 + b3 / 64) :: b3 % 64 :: sextets rest

/-- Pad characters appended by Buffer.toString("base64") for a byte count. -/
def b64padChars (n : Nat) : List Char := List.replicate ((3 - n % 3) % 3) '='

/-- Buffer.from(id).toString("base64"): alphabet characters plus padding. -/
def b64encode (bs : List Nat) : List Char :=
  (sextets bs).map b64char ++ b64padChars bs.length

/-- urnify: base64 encoding with every pad character removed
(.replace of all pad occurrences). -/
def urnify (bs : List Nat) : List Char :=
  (b64encode bs).filter (fun c => c != '=')

/-- Reassemble bytes from 6-bit groups, as Node's base64 decoder does:
complete groups of four give three bytes, a dangling group of three gives
two bytes, of two gives one byte, a single dangling digit is dropped. -/
def decodeChunks : List Nat → List Nat
  | s1 :: s2 :: s3 :: s4 :: rest =>
      (s1 * 4 + s2 / 16) :: (s2 % 16 * 16 + s3 / 4) :: (s3 % 4 * 64 + s4) :: decodeChunks rest
  | [s1, s2, s3] => [s1 * 4 + s2 / 16, s2 % 16 * 16 + s3 / 4]
  | [s1, s2] => [s1 * 4 + s2 / 16]
  | [_] => []
  | [] => []

/-- The padding step of deurnify: append (4 - len % 4) % 4 pad characters. -/
def padTo4 (cs : List Char) : List Char :=
  cs ++ List.replicate ((4 - cs.length % 4) % 4) '='

/-- Buffer.from(s, "base64"): read up to the first pad character, keep only
alphabet characters, reassemble bytes. Total: never signals an error. -/
def b64decode (cs : List Char) : List Nat :=
  decodeChunks ((cs.takeWhile (fun c => c != '=')).filterMap b64value)

/-- deurnify: re-pad to a multiple of four, then base64-decode. -/
def deurnify (cs : List Char) : List Nat :=
  b64decode (padTo4 cs)

/-- Byte values legal in backend identifiers: alphanumerics, hyphen,
period, underscore, colon (all ASCII). -/
def isLegalByte (b : Nat) : Prop :=
  (48 ≤ b ∧ b ≤ 57) ∨ (65 ≤ b ∧ b ≤ 90) ∨ (97 ≤ b ∧ b ≤ 122) ∨
    b = 45 ∨ b = 46 ∨ b = 95 ∨ b = 58

instance (b : Nat) : Decidable (isLegalByte b) := by
  unfold isLegalByte; infer_instance

/-- URL-safe base64 alphabet: alphanumerics, hyphen, underscore. -/
def isUrlSafeB64 (c : Char) : Prop :=
  (65 ≤ c.toNat ∧ c.toNat ≤ 90) ∨ (97 ≤ c.toNat ∧ c.toNat ≤ 122) ∨
    (48 ≤ c.toNat ∧ c.toNat ≤ 57) ∨ c = '-' ∨ c = '_'

instance (c : Char) : Decidable (isUrlSafeB64 c) := by
  unfold isUrlSafeB64; infer_instance

example : urnify [97, 45, 98] = ['Y', 'S', '1', 'i'] := by decide
example : deurnify ['Y', 'S', '1', 'i'] = [97, 45, 98] := by decide
example : deurnify (urnify [104, 105]) = [104, 105] := by decide
example : deurnify ['A'] = [] := by decide

/-! ## Codec lemmas -/

theorem legal_lt256 {b : Nat} (h : isLegalByte b) : b < 256 := by
  unfold isLegalByte at h; omega

theorem sextets_lt64 : ∀ bs : List Nat, (∀ b ∈ bs, b < 256) → ∀ s ∈ sextets bs, s < 64
  | [], _, s, hs => by simp [sextets] at hs
  | [b1], h, s, hs => by
      have h1 : b1 < 256 := h b1 (by simp)
      simp [sextets] at hs
      rcases hs with rfl | rfl <;> omega
  | [b1, b2], h, s, hs => by
      have h1 : b1 < 256 := h b1 (by simp)
      have h2 : b2 < 256 := h b2 (by simp)
      simp [sextets] at hs
      rcases hs with rfl | rfl | rfl <;> omega
  | b1 :: b2 :: b3 :: rest, h, s, hs => by
      have h1 : b1 < 256 := h b1 (by simp)
      have h2 : b2 < 256 := h b2 (by simp)
      have h3 : b3 < 256 := h b3 (by simp)
      have ih := sextets_lt64 rest (fun b hb => h b (by simp [hb]))
      simp [sextets] at hs
      rcases hs with rfl | rfl | rfl | rfl | hmem
      · omega
      · omega
      · omega
      · omega
      · exact ih s hmem

theorem sextets_lt62 : ∀ bs : List Nat, (∀ b ∈ bs, isLegalByte b) → ∀ s ∈ sextets bs, s < 62
  | [], _, s, hs => by simp [sextets] at hs
  | [b1], h, s, hs => by
      have h1 : isLegalByte b1 := h b1 (by simp)
      unfold isLegalByte at h1
      simp [sextets] at hs
      rcases hs with rfl | rfl <;> omega
  | [b1, b2], h, s, hs => by
      have h1 : isLegalByte b1 := h b1 (by simp)
      have h2 : isLegalByte b2 := h b2 (by simp)
      unfold isLegalByte at h1 h2
      simp [sextets] at hs
      rcases hs with rfl | rfl | rfl <;> omega
  | b1 :: b2 :: b3 :: rest, h, s, hs => by
      have h1 : isLegalByte b1 := h b1 (by simp)
      have h2 : isLegalByte b2 := h b2 (by simp)
      have h3 : isLegalByte b3 := h b3 (by simp)
      have ih := sextets_lt62 rest (fun b hb => h b (by simp [hb]))
      unfold isLegalByte at h1 h2 h3
      simp [sextets] at hs
      rcases hs with rfl | rfl | rfl | rfl | hmem
      · omega
      · omega
      · omega
      · omega
      · exact ih s hmem

theorem b64value_b64char : ∀ s : Nat, s < 64 → b64value (b64char s) = some s := by decide

theorem b64char_ne_pad : ∀ s : Nat, s < 64 → (b64char s != '=') = true := by decide

theorem b64char_urlsafe :
    ∀ s : Nat, s < 62 →
      isUrlSafeB64 (b64char s) ∧ b64char s ≠ '=' ∧ b64char s ≠ '+' ∧ b64char s ≠ '/' := by
  decide

/-- With no pad characters to strip, urnify is just the alphabet image of
the 6-bit groups. -/
theorem urnify_eq_map (bs : List Nat) (h : ∀ b ∈ bs, b < 256) :
    urnify bs = (sextets bs).map b64char := by
  unfold urnify b64encode
  rw [List.filter_append]
  have hpad : (b64padChars bs.length).filter (fun c => c != '=') = [] := by
    rw [List.filter_eq_nil_iff]
    intro c hc
    unfold b64padChars at hc
    rw [List.mem_replicate] at hc
    simp [hc.2]
  have hmap : ((sextets bs).map b64char).filter (fun c => c != '=') =
      (sextets bs).map b64char := by
    rw [List.filter_eq_self]
    intro c hc
    rcases List.mem_map.mp hc with ⟨s, hs, rfl⟩
    exact b64char_ne_pad s (sextets_lt64 bs h s hs)
  rw [hpad, hmap, List.append_nil]

theorem takeWhile_append_left (p : Char → Bool) :
    ∀ l r : List Char, (∀ c ∈ l, p c = true) → List.takeWhile p r = [] →
      List.takeWhile p (l ++ r) = l
  | [], r, _, hr => by simpa using hr
  | a :: l, r, hl, hr => by
      have ha : p a = true := hl a (by simp)
      have ih := takeWhile_append_left p l r (fun c hc => hl c (by simp [hc])) hr
      simp [List.takeWhile_cons, ha, ih]

theorem takeWhile_pad_nil (k : Nat) :
    List.takeWhile (fun c => c != '=') (List.replicate k '=') = [] := by
  cases k with
  | zero => rfl
  | succ n => simp [List.replicate_succ, List.takeWhile_cons]

theorem filterMap_b64_map : ∀ l : List Nat, (∀ s ∈ l, s < 64) →
    (l.map b64char).filterMap b64value = l
  | [], _ => rfl
  | s :: rest, h => by
      have hs : b64value (b64char s) = some s := b64value_b64char s (h s (by simp))
      have ih := filterMap_b64_map rest (fun x hx => h x (by simp [hx]))
      simp [List.filterMap_cons, hs, ih]

theorem decodeChunks_sextets : ∀ bs : List Nat, (∀ b ∈ bs, b < 256) →
    decodeChunks (sextets bs) = bs
  | [], _ => rfl
  | [b1], h => by
      have h1 : b1 < 256 := h b1 (by simp)
      simp [sextets, decodeChunks]
      omega
  | [b1, b2], h => by
      have h1 : b1 < 256 := h b1 (by simp)
      have h2 : b2 < 256 := h b2 (by simp)
      simp [sextets, decodeChunks]
      omega
  | b1 :: b2 :: b3 :: rest, h => by
      have h1 : b1 < 256 := h b1 (by simp)
      have h2 : b2 < 256 := h b2 (by simp)
      have h3 : b3 < 256 := h b3 (by simp)
      have ih := decodeChunks_sextets rest (fun b hb => h b (by simp [hb]))
      simp [sextets, decodeChunks, ih]
      omega

/-- C1: for every identifier over the backend's legal characters
(alphanumerics, hyphens, periods, underscores, colons), decoding the
encoded token returns the original identifier: deurnify (urnify id) = id. -/
theorem deurnify_urnify_roundtrip (id : List Nat) (h : ∀ b ∈ id, isLegalByte b) :
    deurnify (urnify id) = id := by
  have h256 : ∀ b ∈ id, b < 256 := fun b hb => legal_lt256 (h b hb)
  have hsex : ∀ s ∈ sextets id, s < 64 := sextets_lt64 id h256
  rw [urnify_eq_map id h256]
  unfold deurnify b64decode padTo4
  rw [takeWhile_append_left _ _ _
        (fun c hc => by
          rcases List.mem_map.mp hc with ⟨s, hs, rfl⟩
          exact b64char_ne_pad s (hsex s hs))
        (takeWhile_pad_nil _)]
  rw [filterMap_b64_map _ hsex]
  exact decodeChunks_sextets id h256

/-- C1 witness: the identifier "a-b" (bytes [97, 45, 98]) is legal and
round-trips through the codec. -/
theorem deurnify_urnify_roundtrip_witness :
    (∀ b ∈ [97, 45, 98], isLegalByte b) ∧ deurnify (urnify [97, 45, 98]) = [97, 45, 98] :=
  ⟨by decide, deurnify_urnify_roundtrip [97, 45, 98] (by decide)⟩

/-- C4: for every identifier over the backend's legal characters, the
encoded token contains no pad character and only URL-safe base64
characters; in particular it never contains a plus or a slash. -/
theorem urnify_urlsafe (id : List Nat) (h : ∀ b ∈ id, isLegalByte b) :
    ∀ c ∈ urnify id, isUrlSafeB64 c ∧ c ≠ '=' ∧ c ≠ '+' ∧ c ≠ '/' := by
  have h256 : ∀ b ∈ id, b < 256 := fun b hb => legal_lt256 (h b hb)
  rw [urnify_eq_map id h256]
  intro c hc
  rcases List.mem_map.mp hc with ⟨s, hs, rfl⟩
  exact b64char_urlsafe s (sextets_lt62 id h s hs)

/-- C4 witness: the token of the identifier "a-b" is URL-safe. -/
theorem urnify_urlsafe_witness :
    (∀ b ∈ [97, 45, 98], isLegalByte b) ∧
      ∀ c ∈ urnify [97, 45, 98], isUrlSafeB64 c ∧ c ≠ '=' ∧ c ≠ '+' ∧ c ≠ '/' :=
  ⟨by decide, urnify_urlsafe [97, 45, 98] (by decide)⟩

theorem b64value_lt64 (c : Char) (n : Nat) (h : b64value c = some n) : n < 64 := by
  unfold b64value at h
  dsimp only at h
  split_ifs at h <;> simp_all <;> omega

theorem decodeChunks_lt256 : ∀ l : List Nat, (∀ s ∈ l, s < 64) →
    ∀ b ∈ decodeChunks l, b < 256
  | [], _, b, hb => by simp [decodeChunks] at hb
  | [s1], _, b, hb => by simp [decodeChunks] at hb
  | [s1, s2], h, b, hb => by
      have e1 : s1 < 64 := h s1 (by simp)
      have e2 : s2 < 64 := h s2 (by simp)
      simp [decodeChunks] at hb
      omega
  | [s1, s2, s3], h, b, hb => by
      have e1 : s1 < 64 := h s1 (by simp)
      have e2 : s2 < 64 := h s2 (by simp)
      have e3 : s3 < 64 := h s3 (by simp)
      simp [decodeChunks] at hb
      rcases hb with rfl | rfl <;> omega
  | s1 :: s2 :: s3 :: s4 :: rest, h, b, hb => by
      have e1 : s1 < 64 := h s1 (by simp)
      have e2 : s2 < 64 := h s2 (by simp)
      have e3 : s3 < 64 := h s3 (by simp)
      have e4 : s4 < 64 := h s4 (by simp)
      have ih := decodeChunks_lt256 rest (fun s hs => h s (by simp [hs]))
      simp [decodeChunks] at hb
      rcases hb with rfl | rfl | rfl | hmem
      · omega
      · omega
      · omega
      · exact ih b hmem

/-- C10: deurnify is total and permissive. For every input token, even one
not produced by urnify or with length 1 modulo 4, the padding step reaches
a multiple of four and decoding returns a byte string (every element a
byte) without signalling an error. -/
theorem deurnify_total (urn : List Char) :
    (padTo4 urn).length % 4 = 0 ∧ ∀ b ∈ deurnify urn, b < 256 := by
  constructor
  · unfold padTo4
    rw [List.length_append, List.length_replicate]
    omega
  · intro b hb
    unfold deurnify b64decode at hb
    refine decodeChunks_lt256 _ ?_ b hb
    intro s hs
    rcases List.mem_filterMap.mp hs with ⟨c, _, hc⟩
    exact b64value_lt64 c s hc

/-! ## Status poller (src/wwwroot/main.js, onModelSelected)

The browser state is the single global timer handle
window.onModelSelectedTimeout plus the runtime's set of armed timers and
the location hash. Timers are given fresh numeric ids by the runtime.
Counters record the observable effects the claims speak about: status
queries issued, timers armed (with their delays) and viewer loads.
-/

structure PollState where
  live : List (Nat × String)
  nextId : Nat
  windowTimeout : Option Nat
  hash : String
  queries : Nat
  timersArmed : Nat
  delays : List Nat
  loads : Nat
  loadAfterQuery : Option Nat
  deriving Repr, DecidableEq

/-- The guard at the top of onModelSelected: clearTimeout on the stored
handle (removing that timer from the runtime if still armed) and delete
the global. -/
def clearPending (s : PollState) : PollState :=
  match s.windowTimeout with
  | some t => { s with live := s.live.filter (fun p => p.1 != t), windowTimeout := none }
  | none => s

/-- The body of onModelSelected after the timer guard: set the location
hash, issue the status query, then branch on the returned status string.
"inprogress" arms setTimeout(onModelSelected, 5000, viewer, urn); the
default branch (any other status) hands off to loadModel. -/
def queryStep (s1 : PollState) (urn : String) (status : String) : PollState :=
  if status = "n/a" then
    { s1 with hash := urn, queries := s1.queries + 1 }
  else if status = "inprogress" then
    { s1 with
      hash := urn,
      queries := s1.queries + 1,
      live := s1.live ++ [(s1.nextId, urn)],
      windowTimeout := some s1.nextId,
      nextId := s1.nextId + 1,
      timersArmed := s1.timersArmed + 1,
      delays := s1.delays ++ [5000] }
  else if status = "failed" then
    { s1 with hash := urn, queries := s1.queries + 1 }
  else
    { s1 with
      hash := urn,
      queries := s1.queries + 1,
      loads := s1.loads + 1,
      loadAfterQuery := some (s1.queries + 1) }

/-- One entry into onModelSelected(viewer, urn), with the status string
the fetch resolved to: first clear any pending timer, then run the query
and branch. -/
def onModelSelected (s : PollState) (urn : String) (status : String) : PollState :=
  queryStep (clearPending s) urn status

/-- The runtime fires an armed timer: only a live timer can fire; the
fired timer is spent, then the scheduled onModelSelected call runs for the
urn the timer captured. -/
def fireTimer (s : PollState) (t : Nat) (status : String) : Option PollState :=
  match s.live.find? (fun p => p.1 == t) with
  | some pu =>
      some (onModelSelected { s with live := s.live.filter (fun p => p.1 != t) } pu.2 status)
  | none => none

/-- An id stored in the global handle was issued by the runtime. -/
def timerIdBound : Option Nat → Nat → Bool
  | none, _ => true
  | some t, n => decide (t < n)

/-- Poll-session invariant: at most one timer is armed, an armed timer is
the one the global handle tracks, and tracked ids are runtime-issued. -/
def PollInv (s : PollState) : Prop :=
  s.live.length ≤ 1 ∧
  (∀ p ∈ s.live, s.windowTimeout = some p.1 ∧ p.1 < s.nextId) ∧
  timerIdBound s.windowTimeout s.nextId = true

instance (s : PollState) : Decidable (PollInv s) := by
  unfold PollInv; infer_instance

theorem clearPending_live (s : PollState) (h : PollInv s) : (clearPending s).live = [] := by
  obtain ⟨-, h2, -⟩ := h
  unfold clearPending
  split
  next t hwt =>
    rw [List.filter_eq_nil_iff]
    intro p hp
    have hpt := (h2 p hp).1
    rw [hwt] at hpt
    have : t = p.1 := by injection hpt
    simp [this]
  next hwt =>
    rw [List.eq_nil_iff_forall_not_mem]
    intro p hp
    have hpt := (h2 p hp).1
    rw [hwt] at hpt
    exact Option.noConfusion hpt

theorem clearPending_windowTimeout (s : PollState) :
    (clearPending s).windowTimeout = none := by
  unfold clearPending
  split
  next t hwt => rfl
  next hwt => exact hwt

theorem clearPending_nextId (s : PollState) : (clearPending s).nextId = s.nextId := by
  unfold clearPending
  split <;> rfl

/-- Either branch of queryStep leaves the timer state alone, or (the
in-progress branch) arms exactly one fresh timer and tracks it. -/
theorem queryStep_shape (s1 : PollState) (urn status : String) :
    ((queryStep s1 urn status).live = s1.live ∧
      (queryStep s1 urn status).windowTimeout = s1.windowTimeout ∧
      (queryStep s1 urn status).nextId = s1.nextId) ∨
    ((queryStep s1 urn status).live = s1.live ++ [(s1.nextId, urn)] ∧
      (queryStep s1 urn status).windowTimeout = some s1.nextId ∧
      (queryStep s1 urn status).nextId = s1.nextId + 1) := by
  unfold queryStep
  split_ifs <;> simp

theorem onModelSelected_inv (s : PollState) (urn status : String) (h : PollInv s) :
    PollInv (onModelSelected s urn status) := by
  have hl := clearPending_live s h
  have hw := clearPending_windowTimeout s
  unfold onModelSelected
  rcases queryStep_shape (clearPending s) urn status with ⟨e1, e2, e3⟩ | ⟨e1, e2, e3⟩
  · refine ⟨?_, ?_, ?_⟩
    · rw [e1, hl]; simp
    · intro p hp
      rw [e1, hl] at hp
      simp at hp
    · rw [e2, hw]; rfl
  · refine ⟨?_, ?_, ?_⟩
    · rw [e1, hl]; simp
    · intro p hp
      rw [e1, hl] at hp
      simp at hp
      subst hp
      exact ⟨by rw [e2], by rw [e3]; omega⟩
    · rw [e2, e3]; simp [timerIdBound]

/-- A timer handle cleared on entry can never fire afterwards. -/
theorem fireTimer_cleared (s : PollState) (urn status : String) (h : PollInv s)
    (t : Nat) (hwt : s.windowTimeout = some t) (st : String) :
    fireTimer (onModelSelected s urn status) t st = none := by
  have h3 := h.2.2
  rw [hwt] at h3
  have htlt : t < s.nextId := by simpa [timerIdBound] using h3
  have hfind : (onModelSelected s urn status).live.find? (fun p => p.1 == t) = none := by
    rw [List.find?_eq_none]
    intro p hp
    unfold onModelSelected at hp
    rcases queryStep_shape (clearPending s) urn status with ⟨e1, -, -⟩ | ⟨e1, -, -⟩
    · rw [e1, clearPending_live s h] at hp
      simp at hp
    · rw [e1, clearPending_live s h] at hp
      simp at hp
      subst hp
      simp [clearPending_nextId s]
      omega
  unfold fireTimer
  rw [hfind]

theorem fireTimer_inv (s : PollState) (t : Nat) (st : String) (s2 : PollState)
    (h : PollInv s) (hf : fireTimer s t st = some s2) : PollInv s2 := by
  unfold fireTimer at hf
  split at hf
  next pu hfind =>
    have hsub : PollInv { s with live := s.live.filter (fun p => p.1 != t) } := by
      refine ⟨?_, ?_, h.2.2⟩
      · exact le_trans (List.length_filter_le _ _) h.1
      · intro p hp
        exact h.2.1 p (List.mem_of_mem_filter hp)
    cases hf
    exact onModelSelected_inv _ _ _ hsub
  next => cases hf

/-- C2: every entry into onModelSelected first clears any pending timer
and arms a new one only in the in-progress branch; the session invariant
is preserved (by handler entries and by timer firing), at most one timer
stays armed, and the cleared timer can never fire a query for the old
subject. -/
theorem poll_at_most_one_timer (s : PollState) (urn status : String) (h : PollInv s) :
    PollInv (onModelSelected s urn status) ∧
    (onModelSelected s urn status).live.length ≤ 1 ∧
    (∀ t, s.windowTimeout = some t →
      ∀ st, fireTimer (onModelSelected s urn status) t st = none) ∧
    (∀ t st s2, fireTimer s t st = some s2 → PollInv s2) :=
  ⟨onModelSelected_inv s urn status h,
   (onModelSelected_inv s urn status h).1,
   fun t hwt st => fireTimer_cleared s urn status h t hwt st,
   fun t st s2 hf => fireTimer_inv s t st s2 h hf⟩

/-- A session with one pending timer for an old subject. -/
def pendingPollState : PollState :=
  { live := [(0, "old-model")], nextId := 1, windowTimeout := some 0, hash := "old-model",
    queries := 1, timersArmed := 1, delays := [5000], loads := 0, loadAfterQuery := none }

/-- C2 witness: selecting a new subject from a session with a pending
timer keeps the invariant and the old timer can no longer fire. -/
theorem poll_at_most_one_timer_witness :
    PollInv pendingPollState ∧
    PollInv (onModelSelected pendingPollState "new-model" "inprogress") ∧
    fireTimer (onModelSelected pendingPollState "new-model" "inprogress") 0 "complete" = none := by
  have h : PollInv pendingPollState := by decide
  exact ⟨h,
    (poll_at_most_one_timer pendingPollState "new-model" "inprogress" h).1,
    (poll_at_most_one_timer pendingPollState "new-model" "inprogress" h).2.2.1 0 rfl "complete"⟩

/-! ## Scripted poll run (C3) -/

/-- The page-load state: no subject, no timer. -/
def initPollState : PollState :=
  { live := [], nextId := 0, windowTimeout := none, hash := "", queries := 0,
    timersArmed := 0, delays := [], loads := 0, loadAfterQuery := none }

/-- Let the pending timer fire repeatedly, each firing consuming the next
scripted status response, until no timer is pending. -/
def drainTimers : PollState → List String → PollState
  | s, [] => s
  | s, st :: rest =>
    match s.windowTimeout with
    | none => s
    | some t =>
      match fireTimer s t st with
      | some s2 => drainTimers s2 rest
      | none => s

/-- Select a subject and run the poll loop against a scripted sequence of
status responses, one response per status query. -/
def runPoll (urn : String) (s : PollState) : List String → PollState
  | [] => s
  | st :: rest => drainTimers (onModelSelected s urn st) rest

/-- C3: against the scripted responses [in-progress, in-progress,
complete], the poller issues exactly 3 status queries, arms exactly 2
timers, each with the fixed 5000-unit delay, and invokes the viewer-load
handoff exactly once, after the 3rd query, leaving no timer pending. -/
theorem poller_scripted_run :
    (runPoll "model-a" initPollState ["inprogress", "inprogress", "complete"]).queries = 3 ∧
    (runPoll "model-a" initPollState ["inprogress", "inprogress", "complete"]).timersArmed = 2 ∧
    (runPoll "model-a" initPollState ["inprogress", "inprogress", "complete"]).delays
      = [5000, 5000] ∧
    (runPoll "model-a" initPollState ["inprogress", "inprogress", "complete"]).loads = 1 ∧
    (runPoll "model-a" initPollState ["inprogress", "inprogress", "complete"]).loadAfterQuery
      = some 3 ∧
    (runPoll "model-a" initPollState ["inprogress", "inprogress", "complete"]).windowTimeout
      = none := by
  decide

/-! ## Status route (src/unnamed/part_000, GET /api/models/:urn/status)

Diagnostic messages are opaque and modelled as numbers. The handler
returns at most one response; none models a request that is never
answered.
-/

structure Child where
  messages : Option (List Nat)
  deriving Repr, DecidableEq

structure Derivative where
  messages : Option (List Nat)
  children : Option (List Child)
  deriving Repr, DecidableEq

structure Manifest where
  status : String
  progress : Option String
  derivatives : Option (List Derivative)
  deriving Repr, DecidableEq

def childMessages (c : Child) : List Nat := c.messages.getD []

/-- One derivative's contribution: its own messages, then the messages of
each of its children, in order. -/
def derivativeMessages (d : Derivative) : List Nat :=
  d.messages.getD [] ++ ((d.children.getD []).map childMessages).flatten

/-- The message-flattening loop of the status handler. -/
def flattenMessages (ds : List Derivative) : List Nat :=
  (ds.map derivativeMessages).flatten

inductive StatusResponse where
  | body (status : String) (progress : Option String) (messages : List Nat)
  | na
  deriving Repr, DecidableEq

/-- The status handler given the manifest getManifest returned (none when
the backend said 404): res.json is only reached inside the
if (manifest.derivatives) block, so a manifest without derivatives sends
no response at all. -/
def statusRoute (manifest : Option Manifest) : Option StatusResponse :=
  match manifest with
  | some m =>
    match m.derivatives with
    | some ds => some (.body m.status m.progress (flattenMessages ds))
    | none => none
  | none => some .na

/-- C6: the status route does NOT send a response for every backend-error-
free request: a manifest that exists but has no derivatives field falls
through both branches and no response is sent, while the no-manifest and
with-derivatives cases do answer. -/
theorem statusRoute_missing_response :
    statusRoute
        (some { status := "pending", progress := some "0% complete", derivatives := none })
      = none ∧
    statusRoute none = some .na ∧
    statusRoute
        (some { status := "success", progress := some "complete", derivatives := some [] })
      = some (.body "success" (some "complete") []) :=
  ⟨rfl, rfl, rfl⟩

/-- C8: flattening a manifest with two top-level derivatives, the first
having one nested child, returns derivative 1's messages, then its
child's messages, then derivative 2's messages, and its length is the
top-level message count plus the child message count. -/
theorem flatten_two_derivatives (m1 mc m2 : List Nat) :
    flattenMessages
        [{ messages := some m1, children := some [{ messages := some mc }] },
         { messages := some m2, children := none }]
      = m1 ++ mc ++ m2 ∧
    (flattenMessages
        [{ messages := some m1, children := some [{ messages := some mc }] },
         { messages := some m2, children := none }]).length
      = (m1.length + m2.length) + mc.length := by
  constructor
  · simp [flattenMessages, derivativeMessages, childMessages]
  · simp [flattenMessages, derivativeMessages, childMessages]
    omega

/-! ## Object-listing pagination (src/services/aps.js, listObjects) -/

structure Page where
  items : List Nat
  next : Option String
  deriving Repr, DecidableEq

/-- The while (response.next) loop of listObjects: keep the current
page's items; while a continuation cursor is present, issue another
getObjects call consuming the next scripted response. Returns the
concatenated items and the number of getObjects calls issued. -/
def pagedLoop : Page → List Page → List Nat × Nat
  | r, rest =>
    match r.next with
    | none => (r.items, 1)
    | some _ =>
      match rest with
      | [] => (r.items, 1)
      | r2 :: rest2 =>
        let p := pagedLoop r2 rest2
        (r.items ++ p.1, p.2 + 1)

/-- listObjects against a scripted backend: the script supplies one
response per getObjects call, the first call consuming the head. -/
def listObjects (script : List Page) : Option (List Nat × Nat) :=
  match script with
  | [] => none
  | p :: rest => some (pagedLoop p rest)

/-- C9: with three pages of sizes 64, 64 and 10, continuation cursors on
the first two and none on the third, listObjects issues exactly 3 backend
calls and returns the 138 items concatenated in page order. -/
theorem listObjects_three_pages (i1 i2 i3 : List Nat) (c1 c2 : String)
    (h1 : i1.length = 64) (h2 : i2.length = 64) (h3 : i3.length = 10) :
    listObjects
        [{ items := i1, next := some c1 },
         { items := i2, next := some c2 },
         { items := i3, next := none }]
      = some (i1 ++ (i2 ++ i3), 3) ∧
    (i1 ++ (i2 ++ i3)).length = 138 := by
  constructor
  · rfl
  · simp [h1, h2, h3]

/-- C9 witness: concrete pages of sizes 64, 64 and 10. -/
theorem listObjects_three_pages_witness :
    listObjects
        [{ items := List.range 64, next := some "s1" },
         { items := List.range 64, next := some "s2" },
         { items := List.range 10, next := none }]
      = some (List.range 64 ++ (List.range 64 ++ List.range 10), 3) ∧
    (List.range 64 ++ (List.range 64 ++ List.range 10)).length = 138 :=
  listObjects_three_pages (List.range 64) (List.range 64) (List.range 10) "s1" "s2"
    (by simp) (by simp) (by simp)

/-! ## Bucket creation route (src/routes/buckets.js, POST /api/buckets) -/

/-- Characters kept by the first replace: [a-z0-9-]. -/
def isSanitaryChar (c : Char) : Bool :=
  ('a' ≤ c && c ≤ 'z') || ('0' ≤ c && c ≤ '9') || c == '-'

/-- Characters that may start or end the name: [a-z0-9]. -/
def isAlnumLower (c : Char) : Bool :=
  ('a' ≤ c && c ≤ 'z') || ('0' ≤ c && c ≤ '9')

/-- The sanitization chain of the handler: toLowerCase, delete every
character outside [a-z0-9-], strip the leading run and the trailing run
of characters outside [a-z0-9]. -/
def sanitizeBucketName (name : List Char) : List Char :=
  let lowered := name.map Char.toLower
  let cleaned := lowered.filter isSanitaryChar
  let noLead := cleaned.dropWhile (fun c => !isAlnumLower c)
  (noLead.reverse.dropWhile (fun c => !isAlnumLower c)).reverse

inductive CreateBucketOutcome where
  | missingName
  | tooShort
  | create (bucketKey : List Char)
  deriving Repr, DecidableEq

/-- POST /api/buckets up to the backend call: 400 for a missing or empty
name, sanitize, 400 when fewer than 3 characters remain, truncate to 128
characters, then call createBucket with the result. -/
def postBuckets (bucketName : Option (List Char)) : CreateBucketOutcome :=
  match bucketName with
  | none => .missingName
  | some name =>
    if name.isEmpty then .missingName
    else
      let s := sanitizeBucketName name
      if s.length < 3 then .tooShort
      else .create (s.take 128)

/-- C5 counterexample: the handler sanitizes "My Bucket!" to "mybucket",
not "my-bucket": characters outside the legal set are deleted, not
replaced with hyphens. -/
theorem sanitize_my_bucket_counterexample :
    sanitizeBucketName ("My Bucket!".toList) = "mybucket".toList ∧
    sanitizeBucketName ("My Bucket!".toList) ≠ "my-bucket".toList := by
  decide

/-- C5 amended: "My Bucket!" sanitizes to "mybucket" and the backend is
called with that name; "ab" (2 characters) is rejected with the 400
length error before any backend call. -/
theorem postBuckets_examples :
    postBuckets (some ("My Bucket!".toList)) = .create ("mybucket".toList) ∧
    postBuckets (some ("ab".toList)) = .tooShort := by
  decide

/-! ## ensureBucketExists (src/services/aps.js lines 43-58)

The two backend calls are abstracted by their outcomes; an error carries
the HTTP status of the backend response.
-/

/-- ensureBucketExists: if the existence check succeeds, done; if it
fails with 404, issue the create call and let its outcome stand,
whatever it is; re-throw any other check error. -/
def ensureBucketExists (getDetails : Except Nat Unit) (create : Except Nat Unit) :
    Except Nat Unit :=
  match getDetails with
  | .ok _ => .ok ()
  | .error status => if status = 404 then create else .error status

/-- C7 counterexample: when the existence check finds the bucket absent
(404) and the create call returns a conflict (409, a concurrent creator
won the race), ensureBucketExists does not succeed: the conflict
propagates as an error. -/
theorem ensureBucket_conflict_counterexample :
    ensureBucketExists (.error 404) (.error 409) = .error 409 ∧
    ensureBucketExists (.error 404) (.error 409) ≠ .ok () :=
  ⟨rfl, fun h => Except.noConfusion h⟩

/-- C7 amended: after a 404 from the existence check, the create call's
outcome propagates unchanged, so a conflict there is an error, not a
tolerated race outcome; a non-404 check error propagates; a successful
check succeeds without any create call being consulted. -/
theorem ensureBucket_behavior (c : Except Nat Unit) (s : Nat) :
    ensureBucketExists (.error 404) c = c ∧
    (s ≠ 404 → ensureBucketExists (.error s) c = .error s) ∧
    ensureBucketExists (.ok ()) c = .ok () := by
  refine ⟨rfl, ?_, rfl⟩
  intro hs
  unfold ensureBucketExists
  simp [hs]

/-- C7 witness: a 403 check error propagates, ignoring the create
outcome. -/
theorem ensureBucket_behavior_witness :
    ensureBucketExists (.error 403) (.error 409) = .error 403 :=
  (ensureBucket_behavior (.error 409) 403).2.1 (by decide)

end Aps
